import Mathlib

/-!
# Verification of the rustmission state-synchronization and command core

Shallow embedding, in Lean 4, of the parts of the `rustmission` terminal
torrent client that the testable properties of the specification are about:

* the fuzzy-filterable torrent table (`TableManager`, `src/rm-main/src/ui/tabs/torrents/mod.rs`),
* the popup layering (`Pipup`, `ErrorPopup`, `MainWindow`, `src/rm-main/src/ui/mod.rs`),
* the tab strip (`TabComponent`, `src/rm-main/src/ui/components/tabs.rs`),
* the Add-Torrent wizard (`AddMagnetBar`, `src/rm-main/src/tui/tabs/torrents/tasks/add_magnet.rs`).

Rust methods become pure Lean functions; a method that mutates `&mut self`
and sends messages over channels becomes a function returning the new state
together with an explicit list of emitted `Effect`s.  Types that live in
crates or modules outside the repository snapshot (the fuzzy matcher, the
generic table widget, the text-input manager, the status-task record) are
modelled from the specification and say so in their doc comments.
-/

namespace Rustmission

/-- Torrent identifier, after `transmission_rpc::types::Id` (external crate):
either a numeric id or an info-hash string. -/
inductive Id where
  | num (n : Int)
  | hash (s : String)
  deriving DecidableEq, Repr

/-- Torrent status, after `transmission_rpc::types::TorrentStatus`
(external crate). -/
inductive TorrentStatus where
  | Stopped
  | QueuedToVerify
  | Verifying
  | QueuedToDownload
  | Downloading
  | QueuedToSeed
  | Seeding
  deriving DecidableEq, Repr

/-- Modelled from the spec: `RustmissionTorrent` lives in the `transmission`
module, which is not part of the source snapshot.  §3 describes the
TorrentSnapshot as identity, display name, rates, progress, ETA and status;
the fields below are exactly the ones the code of the snapshot reads
(`torrent_name`, `id`, `status` and the four display strings used by
`header_widths`). -/
structure RustmissionTorrent where
  torrent_name : String
  id : Id
  status : TorrentStatus
  download_speed : String
  upload_speed : String
  progress : String
  eta_secs : String
  deriving DecidableEq, Repr

/-- Key codes, after `crossterm::event::KeyCode` (external crate); only the
variants the wizard inspects, plus `char`/`backspace` for text editing. -/
inductive KeyCode where
  | enter
  | esc
  | char (c : Char)
  | backspace
  | tab
  deriving DecidableEq, Repr

/-- Error popup state (`ErrorPopup` in `src/rm-main/src/ui/mod.rs`): a title
and a message. -/
structure ErrorPopup where
  title : String
  message : String
  deriving DecidableEq, Repr

/-- Abstract input intents, after the `Action` enum (the `action` module is
shared by both UI trees); only the variants the embedded handlers match on. -/
inductive Action where
  | up
  | down
  | confirm
  | quit
  | showStats
  | pause
  | render
  | changeTab (tab : Nat)
  | input (key : KeyCode)
  | error (popup : ErrorPopup)
  deriving DecidableEq, Repr

/-- Mutating RPC commands, after `TorrentAction` (the `transmission` module):
the variants issued by the embedded code paths. -/
inductive TorrentAction where
  | add (source : String) (directory : Option String)
  | start (ids : List Id)
  | stop (ids : List Id)
  deriving DecidableEq, Repr

/-- Kind of a status task.  Modelled from the spec (§3): `rm_shared::status_task`
is not part of the source snapshot; the kinds listed there are Add, Delete,
Start, Stop. -/
inductive TaskKind where
  | add
  | delete
  | start
  | stop
  deriving DecidableEq, Repr

/-- Modelled from the spec: `StatusTask` (`rm_shared::status_task`, not in the
snapshot) records the kind of a user-issued command and a human summary built
from the captured primary field (§3, §4.5). -/
structure StatusTask where
  kind : TaskKind
  what : String
  deriving DecidableEq, Repr

/-- `StatusTask::new_add(text)`: a task of kind Add whose summary is the
captured source text.  Modelled from the spec (§4.5). -/
def StatusTask.new_add (text : String) : StatusTask :=
  { kind := TaskKind.add, what := text }

/-- Feedback actions sent towards the UI, after `rm_shared::action::UpdateAction`
(not in the snapshot); only the variant the wizard sends. -/
inductive UpdateAction where
  | taskSet (t : StatusTask)
  deriving DecidableEq, Repr

/-- An observable side effect of a handler: a message sent over one of the
three channels exposed by `app::Ctx` (`send_action`, `send_torrent_action`,
`send_update_action`). -/
inductive Effect where
  | action (a : Action)
  | torrentAction (ta : TorrentAction)
  | updateAction (ua : UpdateAction)
  deriving DecidableEq, Repr

/-- Whether an effect is an outgoing command or task registration (as opposed
to a mere render request). -/
def Effect.isCall : Effect → Bool
  | Effect.action _ => false
  | Effect.torrentAction _ => true
  | Effect.updateAction _ => true

/-- Result type returned by `tui` components, after `ComponentAction`
(`tui::components`): `quit` asks the container to pop the component. -/
inductive ComponentAction where
  | nothing
  | quit
  deriving DecidableEq, Repr

/-! ## Text input manager (modelled) -/

/-- Modelled from the spec: `InputManager` (`tui::components`) is not part of
the source snapshot.  It owns a prompt and a text buffer; §4.5 says keys other
than Confirm/Cancel are forwarded to the text-input editing of the active
stage (cursor movement, character insert/delete). -/
structure InputManager where
  prompt : String
  text : String
  deriving DecidableEq, Repr

/-- `InputManager::new(prompt)`: empty initial buffer. -/
def InputManager.new (prompt : String) : InputManager :=
  { prompt := prompt, text := "" }

/-- `InputManager::new_with_value(prompt, value)`: pre-filled buffer. -/
def InputManager.new_with_value (prompt value : String) : InputManager :=
  { prompt := prompt, text := value }

/-- Modelled from the spec: `InputManager::handle_key` applies a text edit and
reports whether the key was handled (`Option` mirrors the Rust return whose
`is_some()` the wizard checks).  Character keys insert, backspace deletes;
other keys are unhandled. -/
def InputManager.handle_key (m : InputManager) : KeyCode → Option InputManager
  | KeyCode.char c => some { m with text := m.text.push c }
  | KeyCode.backspace => some { m with text := String.mk m.text.data.dropLast }
  | _ => none

/-! ## The Add-Torrent wizard (`AddMagnetBar`, add_magnet.rs) -/

/-- `Stage` (add_magnet.rs): the two input stages of the wizard. -/
inductive Stage where
  | AskMagnet
  | AskLocation
  deriving DecidableEq, Repr

/-- Session information carried by the `tui` `app::Ctx`; only the configured
default download directory is read by the wizard. -/
structure SessionInfo where
  download_dir : String
  deriving DecidableEq, Repr

/-- The `tui` application context (`app::Ctx`), restricted to the data the
wizard reads; its channel endpoints are modelled by the `Effect` lists the
embedded handlers return. -/
structure TuiCtx where
  session_info : SessionInfo
  deriving DecidableEq, Repr

/-- `AddMagnetBar` (add_magnet.rs): two input managers and the current stage. -/
structure AddMagnetBar where
  input_magnet_mgr : InputManager
  input_location_mgr : InputManager
  stage : Stage
  ctx : TuiCtx
  deriving DecidableEq, Repr

/-- `AddMagnetBar::new`: stage 1 starts empty, stage 2 is pre-filled with the
configured default download directory. -/
def AddMagnetBar.new (ctx : TuiCtx) : AddMagnetBar :=
  { input_magnet_mgr := InputManager.new ("Add (Magnet URL / Torrent path): ")
    input_location_mgr :=
      InputManager.new_with_value ("Directory: ") ctx.session_info.download_dir
    stage := Stage.AskMagnet
    ctx := ctx }

/-- `AddMagnetBar::handle_magnet_input` (add_magnet.rs lines 48–64): Enter
advances to the location stage and requests a render; Esc quits; any other key
goes to the magnet input manager, with a render request when handled. -/
def AddMagnetBar.handle_magnet_input (b : AddMagnetBar) (input : KeyCode) :
    AddMagnetBar × List Effect × ComponentAction :=
  if input = KeyCode.enter then
    ({ b with stage := Stage.AskLocation },
     [Effect.action Action.render], ComponentAction.nothing)
  else if input = KeyCode.esc then
    (b, [], ComponentAction.quit)
  else
    match b.input_magnet_mgr.handle_key input with
    | some m =>
      ({ b with input_magnet_mgr := m },
       [Effect.action Action.render], ComponentAction.nothing)
    | none => (b, [], ComponentAction.nothing)

/-- `AddMagnetBar::handle_location_input` (add_magnet.rs lines 66–87): Enter
sends `TorrentAction::Add(magnet_text, Some(location_text))`, registers a
`StatusTask` built from the magnet text, and quits; Esc quits; any other key
goes to the location input manager. -/
def AddMagnetBar.handle_location_input (b : AddMagnetBar) (input : KeyCode) :
    AddMagnetBar × List Effect × ComponentAction :=
  if input = KeyCode.enter then
    (b,
     [Effect.torrentAction
        (TorrentAction.add b.input_magnet_mgr.text (some b.input_location_mgr.text)),
      Effect.updateAction
        (UpdateAction.taskSet (StatusTask.new_add b.input_magnet_mgr.text))],
     ComponentAction.quit)
  else if input = KeyCode.esc then
    (b, [], ComponentAction.quit)
  else
    match b.input_location_mgr.handle_key input with
    | some m =>
      ({ b with input_location_mgr := m },
       [Effect.action Action.render], ComponentAction.nothing)
    | none => (b, [], ComponentAction.nothing)

/-- `AddMagnetBar::handle_input`: dispatch on the current stage. -/
def AddMagnetBar.handle_input (b : AddMagnetBar) (input : KeyCode) :
    AddMagnetBar × List Effect × ComponentAction :=
  match b.stage with
  | Stage.AskMagnet => b.handle_magnet_input input
  | Stage.AskLocation => b.handle_location_input input

/-- The `Component::handle_actions` of `AddMagnetBar`: only `Input` events reach
the stage handlers. -/
def AddMagnetBar.handle_actions (b : AddMagnetBar) (action : Action) :
    AddMagnetBar × List Effect × ComponentAction :=
  match action with
  | Action.input k => b.handle_input k
  | _ => (b, [], ComponentAction.nothing)

/-- Script runner: feed a sequence of character keys to the wizard one by one,
through `handle_input`, accumulating the emitted effects. -/
def AddMagnetBar.typeChars (b : AddMagnetBar) : List Char → AddMagnetBar × List Effect
  | [] => (b, [])
  | c :: cs =>
    let r := b.handle_input (KeyCode.char c)
    let r2 := r.1.typeChars cs
    (r2.1, r.2.1 ++ r2.2)

/-! ## Fuzzy matching -/

/-- Whether the first character list occurs as an ordered (not necessarily
contiguous) subsequence of the second. -/
def isCharSubseq : List Char → List Char → Bool
  | [], _ => true
  | _ :: _, [] => false
  | c :: cs, d :: ds => if c = d then isCharSubseq cs ds else isCharSubseq (c :: cs) ds

/-- Modelled from the spec: the external `SkimMatcherV2` fuzzy matcher
(crate `fuzzy_matcher`), used through `fuzzy_match(choice, pattern).is_some()`.
The glossary defines a fuzzy match as: the characters of the pattern occur as an
ordered, not necessarily contiguous, subsequence of the target,
case-insensitive. -/
def fuzzy_match (choice pattern : String) : Bool :=
  isCharSubseq (pattern.data.map Char.toLower) (choice.data.map Char.toLower)

/-! ## Generic table / selection controller (modelled) -/

/-- Modelled from the spec: `GenericTable` (`ui::components::table`) is not
part of the source snapshot.  The Selection Controller of §4.3 holds a cursor over
the current filtered view; the view itself is kept in the owning
`TableManager`, so the model keeps the cursor together with the last published
view length (`overwrite_len` is called with the rendered row count on every
frame). -/
structure GenericTable where
  selected : Option Nat
  len : Nat
  deriving DecidableEq, Repr

/-- `GenericTable::new(vec![])`: empty table, no selection (§4.3: cursor is
`None` when the view is empty). -/
def GenericTable.new : GenericTable :=
  { selected := none, len := 0 }

/-- Modelled from the spec (§4.3): `next` moves the cursor down by one within
`[0, len-1]`, saturating at the boundary.  On an empty view there is nothing
to select; on a non-empty view with no cursor yet, the first row is selected
(§8 Property 1 requires a valid index whenever the view is non-empty). -/
def GenericTable.next (t : GenericTable) : GenericTable :=
  if t.len = 0 then t
  else
    match t.selected with
    | none => { t with selected := some 0 }
    | some c => { t with selected := some (min (c + 1) (t.len - 1)) }

/-- Modelled from the spec (§4.3): `previous` moves the cursor up by one,
saturating at 0; same empty/no-cursor conventions as `next`. -/
def GenericTable.previous (t : GenericTable) : GenericTable :=
  if t.len = 0 then t
  else
    match t.selected with
    | none => { t with selected := some 0 }
    | some c => { t with selected := some (c - 1) }

/-- Modelled from the spec (§4.3): `overwrite_len` publishes the new view
length and re-clamps the cursor — `None` when the new view is empty, shrink
to `new_len - 1` when the old index falls off the end, otherwise positionally
preserved.  The spec leaves the no-cursor, non-empty case implicit; §8
Property 1 requires a valid index there, so the first row is selected. -/
def GenericTable.overwrite_len (t : GenericTable) (new_len : Nat) : GenericTable :=
  if new_len = 0 then { selected := none, len := 0 }
  else
    match t.selected with
    | none => { selected := some 0, len := new_len }
    | some c => { selected := some (min c (new_len - 1)), len := new_len }

/-- One user-visible table operation: a cursor move, or a view recompute
(a poll update or a filter change publishing a new view length). -/
inductive TableOp where
  | next
  | previous
  | overwriteLen (n : Nat)
  deriving DecidableEq, Repr

/-- Apply one table operation. -/
def GenericTable.step (t : GenericTable) : TableOp → GenericTable
  | TableOp.next => t.next
  | TableOp.previous => t.previous
  | TableOp.overwriteLen n => t.overwrite_len n

/-- Apply a sequence of table operations, first operation first. -/
def GenericTable.run (t : GenericTable) : List TableOp → GenericTable
  | [] => t
  | op :: ops => (t.step op).run ops

/-- The selection invariant of §3: no cursor over an empty view, a valid index
over a non-empty one. -/
def GenericTable.Inv (t : GenericTable) : Prop :=
  (t.len = 0 → t.selected = none) ∧
  (0 < t.len → ∃ i, t.selected = some i ∧ i < t.len)

/-! ## Table manager (`TableManager`, ui/tabs/torrents/mod.rs) -/

/-- Layout constraint, after `ratatui::layout::Constraint`; only the two
variants the table code constructs. -/
inductive Constraint where
  | max (n : Nat)
  | length (n : Nat)
  deriving DecidableEq, Repr

/-- The `general` section of the configuration, restricted to the flag the
table code reads (`ctx.config.general.auto_hide`). -/
structure GeneralConfig where
  auto_hide : Bool
  deriving DecidableEq, Repr

/-- Configuration root. -/
structure Config where
  general : GeneralConfig
  deriving DecidableEq, Repr

/-- The `ui` application context (`app::Ctx`), restricted to the data the
embedded code reads; its channel endpoints are modelled by the `Effect` lists
the handlers return. -/
structure Ctx where
  config : Config
  deriving DecidableEq, Repr

/-- `TableManager` (mod.rs lines 35–41): the shared table state, the stored
row list, the column widths and the optional filter pattern. -/
structure TableManager where
  ctx : Ctx
  table : GenericTable
  rows : List RustmissionTorrent
  widths : List Constraint
  filter : Option String
  deriving DecidableEq, Repr

/-- `TableManager::default_widths` (mod.rs lines 59–68). -/
def TableManager.default_widths : List Constraint :=
  [Constraint.max 70, Constraint.length 10, Constraint.length 10,
   Constraint.length 10, Constraint.length 10, Constraint.length 10]

/-- `TableManager::new` (mod.rs lines 44–57). -/
def TableManager.new (ctx : Ctx) (table : GenericTable)
    (rows : List RustmissionTorrent) : TableManager :=
  { ctx := ctx, table := table, rows := rows
    widths := TableManager.default_widths, filter := none }

/-- `TableManager::header_widths` (mod.rs lines 104–138): with `auto_hide`
off, the default widths; otherwise a column collapses to width 0 when every
cell of every row for it is empty. -/
def TableManager.header_widths (tm : TableManager)
    (rows : List RustmissionTorrent) : List Constraint :=
  if !tm.ctx.config.general.auto_hide then TableManager.default_widths
  else
    let download_width := if rows.all (fun r => r.download_speed.isEmpty) then 0 else 9
    let upload_width := if rows.all (fun r => r.upload_speed.isEmpty) then 0 else 9
    let progress_width := if rows.all (fun r => r.progress.isEmpty) then 0 else 9
    let eta_width := if rows.all (fun r => r.eta_secs.isEmpty) then 0 else 9
    [Constraint.max 70, Constraint.length 9, Constraint.length progress_width,
     Constraint.length eta_width, Constraint.length download_width,
     Constraint.length upload_width]

/-- `TableManager::get_current_item` (mod.rs lines 70–89): resolve the
selected index of the table against the stored rows, re-filtered through the fuzzy matcher
when a pattern is set; `None` when there is no selection or the index is out
of range. -/
def TableManager.get_current_item (tm : TableManager) : Option RustmissionTorrent :=
  match tm.table.selected with
  | none => none
  | some index =>
    match tm.filter with
    | some filter =>
      (tm.rows.filter (fun row => fuzzy_match row.torrent_name filter)).get? index
    | none => tm.rows.get? index

/-- `TableManager::set_new_rows` (mod.rs lines 91–102): store the incoming
rows — filtered down to the fuzzy matches when a pattern is set — and refresh
the column widths. -/
def TableManager.set_new_rows (tm : TableManager)
    (rows : List RustmissionTorrent) : TableManager :=
  let newRows :=
    match tm.filter with
    | some filter => rows.filter (fun row => fuzzy_match row.torrent_name filter)
    | none => rows
  { tm with rows := newRows, widths := tm.header_widths newRows }

/-- Modelled from the spec (§4.2): the filter-input component (not part of the
source snapshot) commits a pattern by writing it into the shared
`TableManager.filter` cell. -/
def TableManager.set_pattern (tm : TableManager) (pattern : String) : TableManager :=
  { tm with filter := some pattern }

/-- Modelled from the spec (§4.2): clearing the pattern writes `None` into the
shared filter cell. -/
def TableManager.clear_pattern (tm : TableManager) : TableManager :=
  { tm with filter := none }

/-- The rendered, user-visible view of the table.  `TorrentsTab::render`
(mod.rs lines 195–204) maps each stored row through
`RustmissionTorrent::to_row(torrent, filter)` and keeps the `Some` results;
`to_row` is not part of the source snapshot and is modelled from the spec
(§4.2): a row survives exactly when its name fuzzy-matches the pattern, and
the rows keep their original order. -/
def TableManager.currentView (tm : TableManager) : List RustmissionTorrent :=
  match tm.filter with
  | some filter => tm.rows.filter (fun row => fuzzy_match row.torrent_name filter)
  | none => tm.rows

/-! ## Torrents tab (`TorrentsTab`, ui/tabs/torrents/mod.rs) -/

/-- Session statistics, after `transmission_rpc::types::SessionStats`
(external crate); its contents are opaque to the embedded handlers. -/
structure SessionStats where
  deriving DecidableEq, Repr

/-- Modelled from the spec: `StatisticsPopup` (`popups::stats`, not part of
the source snapshot) is a modal overlay over the session statistics. -/
structure StatisticsPopup where
  stats : SessionStats
  deriving DecidableEq, Repr

/-- Modelled from the spec (§4.4): the statistics popup, like the other
overlays, signals `Quit` to be popped; no claim depends on which key closes
it. -/
def StatisticsPopup.handle_actions (_ : StatisticsPopup) (action : Action) :
    Option Action :=
  match action with
  | Action.quit => some Action.quit
  | _ => none

/-- Modelled from the spec: `TaskManager` (`task_manager.rs`, not part of the
source snapshot) absorbs the actions the torrents tab does not handle itself;
no claim depends on its behaviour. -/
structure TaskManager where
  deriving DecidableEq, Repr

/-- Modelled from the spec: the task manager consumes the forwarded action.
No claim depends on its behaviour. -/
def TaskManager.handle_actions (t : TaskManager) (_ : Action) :
    TaskManager × List Effect × Option Action :=
  (t, [], none)

/-- `TorrentsTab` (mod.rs lines 26–33): the table manager, the data of the
stats line, the task manager and the optional statistics popup.  (The header labels
are render-only and carried verbatim.) -/
structure TorrentsTab where
  table_manager : TableManager
  stats : Option SessionStats
  task : TaskManager
  statistics_popup : Option StatisticsPopup
  ctx : Ctx
  header : List String
  deriving DecidableEq, Repr

/-- `TorrentsTab::handle_actions` (mod.rs lines 238–303).  An open statistics
popup takes all input and is dropped when it signals `Quit`.  Otherwise: `Up`
and `Down` move the table cursor and request a render; `ShowStats` opens the
statistics popup when stats are available; `Pause` resolves the current item
and sends `Start` for a `Stopped` torrent and `Stop` for any other status —
with no current item it does nothing; everything else is forwarded to the
task manager. -/
def TorrentsTab.handle_actions (t : TorrentsTab) (action : Action) :
    TorrentsTab × List Effect × Option Action :=
  match t.statistics_popup with
  | some popup =>
    match popup.handle_actions action with
    | some Action.quit => ({ t with statistics_popup := none }, [], some Action.render)
    | _ => (t, [], none)
  | none =>
    match action with
    | Action.up =>
      ({ t with table_manager := { t.table_manager with table := t.table_manager.table.previous } },
       [], some Action.render)
    | Action.down =>
      ({ t with table_manager := { t.table_manager with table := t.table_manager.table.next } },
       [], some Action.render)
    | Action.showStats =>
      match t.stats with
      | some stats =>
        ({ t with statistics_popup := some { stats := stats } }, [], some Action.render)
      | none => (t, [], none)
    | Action.pause =>
      match t.table_manager.get_current_item with
      | some torrent =>
        match torrent.status with
        | TorrentStatus.Stopped =>
          (t, [Effect.torrentAction (TorrentAction.start [torrent.id])], none)
        | _ =>
          (t, [Effect.torrentAction (TorrentAction.stop [torrent.id])], none)
      | none => (t, [], none)
    | other =>
      let r := t.task.handle_actions other
      ({ t with task := r.1 }, r.2.1, r.2.2)

/-! ## Popup layering (`Pipup`, `ErrorPopup`, `MainWindow`, ui/mod.rs) -/

/-- `HelpPopup` (ui/mod.rs line 105): a unit struct. -/
structure HelpPopup where
  deriving DecidableEq, Repr

/-- Modelled from the spec: `impl Component for HelpPopup {}` uses the
default `handle_events` of the `Component` trait, and the trait definition is not
part of the source snapshot; a component with no handler of its own consumes
the event and produces nothing. -/
def HelpPopup.handle_events (_ : HelpPopup) (_ : Action) : Option Action :=
  none

/-- `ErrorPopup::handle_events` (ui/mod.rs lines 81–86): `Confirm` answers
`Quit` (asking to be dismissed); every other action is ignored. -/
def ErrorPopup.handle_events (_ : ErrorPopup) (action : Action) : Option Action :=
  match action with
  | Action.confirm => some Action.quit
  | _ => none

/-- `Pipup` (ui/mod.rs lines 29–33): at most one error popup and at most one
help popup. -/
structure Pipup where
  error_popup : Option ErrorPopup
  help_popup : Option HelpPopup
  deriving DecidableEq, Repr

/-- `Pipup::needs_action` (ui/mod.rs lines 36–38). -/
def Pipup.needs_action (p : Pipup) : Bool :=
  p.error_popup.isSome || p.help_popup.isSome

/-- Which handler an event was delivered to; this tag records the branch the
dispatch code took and is the observable record of who received the input in the
overlay-precedence claims. -/
inductive Routed where
  | toError
  | toHelp
  | toBase
  | errorRaise
  | toNobody
  deriving DecidableEq, Repr

/-- `Pipup::handle_events` (ui/mod.rs lines 42–53): an active error popup
receives the event first and is removed exactly when it answers `Quit`;
otherwise an active help popup receives the event; otherwise nothing happens.
The `Routed` component tags the branch taken. -/
def Pipup.handle_events (p : Pipup) (action : Action) :
    Pipup × Option Action × Routed :=
  match p.error_popup with
  | some popup =>
    (match popup.handle_events action with
     | some Action.quit => { p with error_popup := none }
     | _ => p,
     none, Routed.toError)
  | none =>
    match p.help_popup with
    | some popup => (p, popup.handle_events action, Routed.toHelp)
    | none => (p, none, Routed.toNobody)

/-- `MainWindow` (ui/mod.rs lines 109–113). -/
structure MainWindow where
  torrents_tab : TorrentsTab
  popup : Pipup
  deriving DecidableEq, Repr

/-- `MainWindow::handle_events` (ui/mod.rs lines 126–137): an `Error` action
installs its payload as the error popup; otherwise the popups receive the
event when any is active, else the base torrents tab does. -/
def MainWindow.handle_events (w : MainWindow) (action : Action) :
    MainWindow × Option Action × Routed :=
  match action with
  | Action.error e =>
    ({ w with popup := { w.popup with error_popup := some e } }, none, Routed.errorRaise)
  | _ =>
    if w.popup.needs_action then
      let r := w.popup.handle_events action
      ({ w with popup := r.1 }, r.2.1, r.2.2)
    else
      let r := w.torrents_tab.handle_actions action
      ({ w with torrents_tab := r.1 }, r.2.2, Routed.toBase)

/-! ## Tab strip (`TabComponent`, ui/components/tabs.rs) -/

/-- `CurrentTab` (tabs.rs lines 7–10). -/
inductive CurrentTab where
  | Torrents
  | Search
  deriving DecidableEq, Repr

/-- `TabComponent` (tabs.rs lines 12–15). -/
structure TabComponent where
  tabs_list : List String
  current_tab : CurrentTab
  deriving DecidableEq, Repr

/-- `TabComponent::new` (tabs.rs lines 18–23). -/
def TabComponent.new : TabComponent :=
  { tabs_list := ["Torrents", "Search"], current_tab := CurrentTab.Torrents }

/-- `TabComponent::handle_actions` (tabs.rs lines 41–50): `ChangeTab(1)`
selects Torrents, `ChangeTab(2)` selects Search, any other argument leaves the
tab unchanged; the handler always answers `None`. -/
def TabComponent.handle_actions (tc : TabComponent) (action : Action) :
    TabComponent × Option Action :=
  match action with
  | Action.changeTab tab =>
    (match tab with
     | 1 => { tc with current_tab := CurrentTab.Torrents }
     | 2 => { tc with current_tab := CurrentTab.Search }
     | _ => tc,
     none)
  | _ => (tc, none)

/-- Whether an action is an internally synthesized `Error`. -/
def Action.isError : Action → Bool
  | Action.error _ => true
  | _ => false

/-! ## Theorems -/

/-- C10: for the tab component, `ChangeTab(1)` selects the Torrents tab,
`ChangeTab(2)` selects the Search tab, any other argument leaves the current
tab (indeed the whole component) unchanged, and no action — `ChangeTab` or
otherwise — ever produces a follow-up action. -/
theorem changeTab_selects_and_never_follows_up (tc : TabComponent) (n : Nat)
    (a : Action) :
    (tc.handle_actions a).2 = none ∧
    (tc.handle_actions (Action.changeTab n)).1 =
      (if n = 1 then { tc with current_tab := CurrentTab.Torrents }
       else if n = 2 then { tc with current_tab := CurrentTab.Search }
       else tc) := by
  constructor
  · cases a <;> rfl
  · rcases n with _ | _ | _ | n <;> rfl

/-- Stepping a table that satisfies the selection invariant preserves it. -/
theorem GenericTable.Inv.step {t : GenericTable} (h : t.Inv) (op : TableOp) :
    (t.step op).Inv := by
  obtain ⟨h0, hpos⟩ := h
  cases op with
  | next =>
    by_cases hl : t.len = 0
    · have hsel := h0 hl
      simp [GenericTable.step, GenericTable.next, hl, GenericTable.Inv, hsel]
    · cases hs : t.selected with
      | none =>
        simp [GenericTable.step, GenericTable.next, hl, hs, GenericTable.Inv]
      | some c =>
        simp [GenericTable.step, GenericTable.next, hl, hs, GenericTable.Inv]
        omega
  | previous =>
    by_cases hl : t.len = 0
    · have hsel := h0 hl
      simp [GenericTable.step, GenericTable.previous, hl, GenericTable.Inv, hsel]
    · cases hs : t.selected with
      | none =>
        simp [GenericTable.step, GenericTable.previous, hl, hs, GenericTable.Inv]
      | some c =>
        obtain ⟨j, hj, hjlen⟩ := hpos (Nat.pos_of_ne_zero hl)
        rw [hs] at hj
        cases hj
        simp [GenericTable.step, GenericTable.previous, hl, hs, GenericTable.Inv]
        omega
  | overwriteLen n =>
    by_cases hn : n = 0
    · simp [GenericTable.step, GenericTable.overwrite_len, hn, GenericTable.Inv]
    · cases hs : t.selected with
      | none =>
        simp [GenericTable.step, GenericTable.overwrite_len, hn, hs, GenericTable.Inv]
      | some c =>
        simp [GenericTable.step, GenericTable.overwrite_len, hn, hs, GenericTable.Inv]
        omega

/-- Running any operation sequence from an invariant-satisfying table keeps
the invariant. -/
theorem GenericTable.Inv.run {t : GenericTable} (h : t.Inv) (ops : List TableOp) :
    (t.run ops).Inv := by
  induction ops generalizing t with
  | nil => exact h
  | cons op ops ih => exact ih (h.step op)

/-- C5: after every sequence of cursor moves and view recomputations (poll
updates and filter changes, each publishing the new view length), the
selection cursor is `None` exactly when the view is empty and otherwise is an
index within `[0, len-1]`. -/
theorem selection_cursor_always_valid (ops : List TableOp) :
    (GenericTable.new.run ops).Inv := by
  have hnew : GenericTable.new.Inv := by
    constructor
    · intro _; rfl
    · intro h; simp [GenericTable.new] at h
  exact hnew.run ops

/-- C3: with no statistics popup open, for every selected torrent, the Pause
intent sends `Start` with the id of that torrent when its status is `Stopped`, and
`Stop` with the id of that torrent for any other status; the tab state is left
unchanged. -/
theorem pause_toggles_by_status (t : TorrentsTab) (torrent : RustmissionTorrent)
    (hpopup : t.statistics_popup = none)
    (hcur : t.table_manager.get_current_item = some torrent) :
    t.handle_actions Action.pause =
      (t,
       [Effect.torrentAction
          (if torrent.status = TorrentStatus.Stopped then TorrentAction.start [torrent.id]
           else TorrentAction.stop [torrent.id])],
       none) := by
  cases hstat : torrent.status <;>
    simp [TorrentsTab.handle_actions, hpopup, hcur, hstat]

/-- A sample torrent for concrete runs. -/
def sampleTorrent : RustmissionTorrent :=
  { torrent_name := "alpha", id := Id.num 1, status := TorrentStatus.Stopped
    download_speed := "", upload_speed := "", progress := "", eta_secs := "" }

/-- A concrete torrents tab with one row and the first row selected. -/
def sampleTab : TorrentsTab :=
  { table_manager :=
      { ctx := { config := { general := { auto_hide := false } } }
        table := { selected := some 0, len := 1 }
        rows := [sampleTorrent]
        widths := TableManager.default_widths
        filter := none }
    stats := none, task := {}, statistics_popup := none
    ctx := { config := { general := { auto_hide := false } } }
    header := [] }

/-- Witness for C3: on the concrete tab with a selected `Stopped` torrent,
Pause sends `Start([1])`. -/
theorem pause_toggles_by_status_witness :
    sampleTab.handle_actions Action.pause =
      (sampleTab, [Effect.torrentAction (TorrentAction.start [Id.num 1])], none) := by
  have h := pause_toggles_by_status sampleTab sampleTorrent rfl rfl
  simpa using h

/-- C9: with no statistics popup open and no current item (no selection, or a
cursor that resolves to nothing in the filtered view), the Pause intent is a
silent no-op: the state is unchanged, no effect is emitted, and no follow-up
action (in particular no overlay) is produced. -/
theorem pause_without_selection_is_noop (t : TorrentsTab)
    (hpopup : t.statistics_popup = none)
    (hcur : t.table_manager.get_current_item = none) :
    t.handle_actions Action.pause = (t, [], none) := by
  simp [TorrentsTab.handle_actions, hpopup, hcur]

/-- A concrete torrents tab with rows but no selection. -/
def sampleTabNoSelection : TorrentsTab :=
  { sampleTab with
      table_manager := { sampleTab.table_manager with
        table := { selected := none, len := 1 } } }

/-- Witness for C9: on the concrete tab without a selection, Pause does
nothing. -/
theorem pause_without_selection_is_noop_witness :
    sampleTabNoSelection.handle_actions Action.pause = (sampleTabNoSelection, [], none) :=
  pause_without_selection_is_noop sampleTabNoSelection rfl rfl

/-- C8: Cancel (Esc) at any stage of the Add-Torrent wizard asks the container
to pop the wizard (`quit`) while emitting no effect at all — no RPC call, no
status task — and leaves the captured input untouched for the container to
discard. -/
theorem wizard_cancel_emits_nothing (b : AddMagnetBar) :
    b.handle_actions (Action.input KeyCode.esc) = (b, [], ComponentAction.quit) := by
  cases hs : b.stage <;>
    simp [AddMagnetBar.handle_actions, AddMagnetBar.handle_input,
      AddMagnetBar.handle_magnet_input, AddMagnetBar.handle_location_input, hs]

/-- A concrete wizard context whose configured download directory is
`/downloads`. -/
def c6Ctx : TuiCtx := { session_info := { download_dir := "/downloads" } }

/-- C6 counterexample: a freshly opened wizard has an empty source field, yet
confirming (Enter) advances it to the location stage — the claimed local
rejection of an empty required field does not happen. -/
theorem empty_confirm_advances_stage :
    (AddMagnetBar.new c6Ctx).input_magnet_mgr.text = "" ∧
    ((AddMagnetBar.new c6Ctx).handle_input KeyCode.enter).1.stage = Stage.AskLocation :=
  ⟨rfl, rfl⟩

/-- C6 amended: confirming a wizard stage whose text field is empty is not
rejected.  On stage 1 the wizard advances to stage 2 emitting only a render
request — no RPC call and no overlay; on the final stage it issues the add
call with the empty captured texts and closes the wizard. -/
theorem empty_confirm_not_rejected (b : AddMagnetBar)
    (hmag : b.input_magnet_mgr.text = "")
    (hloc : b.input_location_mgr.text = "") :
    (b.stage = Stage.AskMagnet →
      b.handle_input KeyCode.enter =
        ({ b with stage := Stage.AskLocation }, [Effect.action Action.render],
         ComponentAction.nothing)) ∧
    (b.stage = Stage.AskLocation →
      b.handle_input KeyCode.enter =
        (b,
         [Effect.torrentAction (TorrentAction.add ("") (some (""))),
          Effect.updateAction (UpdateAction.taskSet (StatusTask.new_add ("")))],
         ComponentAction.quit)) := by
  constructor
  · intro hs
    simp [AddMagnetBar.handle_input, AddMagnetBar.handle_magnet_input, hs]
  · intro hs
    simp [AddMagnetBar.handle_input, AddMagnetBar.handle_location_input, hs, hmag, hloc]

/-- A wizard context whose configured download directory is empty, so that
both stages start with empty fields. -/
def emptyCtx : TuiCtx := { session_info := { download_dir := "" } }

/-- Witness for the amended C6: confirming the empty stage-1 field of a fresh
wizard advances it to stage 2 with only a render request. -/
theorem empty_confirm_not_rejected_witness :
    (AddMagnetBar.new emptyCtx).handle_input KeyCode.enter =
      ({ AddMagnetBar.new emptyCtx with stage := Stage.AskLocation },
       [Effect.action Action.render], ComponentAction.nothing) :=
  (empty_confirm_not_rejected (AddMagnetBar.new emptyCtx) rfl rfl).1 rfl

/-- A torrent named `alpha`. -/
def alphaTorrent : RustmissionTorrent :=
  { torrent_name := "alpha", id := Id.num 1, status := TorrentStatus.Downloading
    download_speed := "", upload_speed := "", progress := "", eta_secs := "" }

/-- A torrent named `beta`. -/
def betaTorrent : RustmissionTorrent :=
  { torrent_name := "beta", id := Id.num 2, status := TorrentStatus.Downloading
    download_speed := "", upload_speed := "", progress := "", eta_secs := "" }

/-- A table manager holding `alpha` and `beta`, unfiltered. -/
def filterScenarioStart : TableManager :=
  { ctx := { config := { general := { auto_hide := false } } }
    table := GenericTable.new
    rows := [alphaTorrent, betaTorrent]
    widths := TableManager.default_widths
    filter := none }

/-- C1: filtering is destructive in the code.  With the pattern `al` active,
a poll that re-delivers the very same snapshot list `[alpha, beta]` makes
`set_new_rows` store only the filtered subset `[alpha]`; clearing the pattern
afterwards shows `[alpha]`, not the pre-filter view `[alpha, beta]` — the
stored snapshot sequence was destructively altered by applying the filter. -/
theorem filter_roundtrip_fails :
    filterScenarioStart.currentView = [alphaTorrent, betaTorrent] ∧
    ((filterScenarioStart.set_pattern ("al")).set_new_rows
        [alphaTorrent, betaTorrent]).rows = [alphaTorrent] ∧
    (((filterScenarioStart.set_pattern ("al")).set_new_rows
        [alphaTorrent, betaTorrent]).clear_pattern).currentView = [alphaTorrent] := by
  refine ⟨rfl, ?_, ?_⟩ <;> decide

/-- Typing character keys into a wizard sitting at the location stage keeps it
at that stage, leaves the magnet field alone, appends the characters to the
location field, and emits no RPC call or task registration. -/
theorem typeChars_at_location (cs : List Char) :
    ∀ b : AddMagnetBar, b.stage = Stage.AskLocation →
      (b.typeChars cs).1 =
        { b with input_location_mgr :=
            { b.input_location_mgr with
                text := cs.foldl (fun s c => s.push c) b.input_location_mgr.text } } ∧
      (b.typeChars cs).2.filter Effect.isCall = [] := by
  induction cs with
  | nil =>
    intro b _
    constructor
    · show b = _
      rfl
    · rfl
  | cons c cs ih =>
    intro b hs
    have hstep : b.handle_input (KeyCode.char c) =
        ({ b with input_location_mgr :=
             { b.input_location_mgr with text := b.input_location_mgr.text.push c } },
         [Effect.action Action.render], ComponentAction.nothing) := by
      simp [AddMagnetBar.handle_input, AddMagnetBar.handle_location_input, hs,
        InputManager.handle_key]
    obtain ⟨ih1, ih2⟩ := ih
      { b with input_location_mgr :=
          { b.input_location_mgr with text := b.input_location_mgr.text.push c } } hs
    constructor
    · simp [AddMagnetBar.typeChars, hstep, ih1]
    · simp [AddMagnetBar.typeChars, hstep, ih2, Effect.isCall]

/-- The wizard state and effects after confirming stage 1 of a fresh wizard. -/
def wizardAfterStage1 (ctx : TuiCtx) : AddMagnetBar × List Effect × ComponentAction :=
  (AddMagnetBar.new ctx).handle_input KeyCode.enter

/-- The wizard state and effects after then typing `cs` into stage 2. -/
def wizardAfterTyping (ctx : TuiCtx) (cs : List Char) : AddMagnetBar × List Effect :=
  (wizardAfterStage1 ctx).1.typeChars cs

/-- The wizard state and effects after then confirming stage 2. -/
def wizardAfterStage2 (ctx : TuiCtx) (cs : List Char) :
    AddMagnetBar × List Effect × ComponentAction :=
  (wizardAfterTyping ctx cs).1.handle_input KeyCode.enter

/-- All effects emitted over the whole run. -/
def wizardRunEffects (ctx : TuiCtx) (cs : List Char) : List Effect :=
  (wizardAfterStage1 ctx).2.1 ++ (wizardAfterTyping ctx cs).2 ++
    (wizardAfterStage2 ctx cs).2.1

/-- C2: opening the Add-Torrent wizard (empty source field, location
pre-filled with the configured default directory), confirming stage 1,
typing any characters into stage 2 and confirming stage 2 emits, over the
whole run, exactly one RPC command — `add` carrying the captured (empty)
source text and `Some` of the edited directory text — and exactly one status
task, of kind Add, built from the source text; the final step asks the
container to pop the wizard overlay. -/
theorem add_wizard_roundtrip (ctx : TuiCtx) (cs : List Char) :
    (wizardRunEffects ctx cs).filter Effect.isCall =
      [Effect.torrentAction
         (TorrentAction.add ("")
           (some (cs.foldl (fun s c => s.push c) ctx.session_info.download_dir))),
       Effect.updateAction (UpdateAction.taskSet (StatusTask.new_add ("")))] ∧
    (wizardAfterStage2 ctx cs).2.2 = ComponentAction.quit := by
  have h1 : wizardAfterStage1 ctx =
      ({ AddMagnetBar.new ctx with stage := Stage.AskLocation },
       [Effect.action Action.render], ComponentAction.nothing) := by
    simp [wizardAfterStage1, AddMagnetBar.handle_input, AddMagnetBar.handle_magnet_input,
      AddMagnetBar.new]
  obtain ⟨ht1, ht2⟩ :=
    typeChars_at_location cs ({ AddMagnetBar.new ctx with stage := Stage.AskLocation }) rfl
  have h2 : wizardAfterTyping ctx cs =
      ((wizardAfterStage1 ctx).1.typeChars cs) := rfl
  rw [h1] at h2
  have hstate : (wizardAfterTyping ctx cs).1 =
      { AddMagnetBar.new ctx with
          stage := Stage.AskLocation
          input_location_mgr :=
            { (AddMagnetBar.new ctx).input_location_mgr with
                text := cs.foldl (fun s c => s.push c)
                  (AddMagnetBar.new ctx).input_location_mgr.text } } := by
    rw [h2, ht1]
  have h3 : wizardAfterStage2 ctx cs =
      ((wizardAfterTyping ctx cs).1,
       [Effect.torrentAction
          (TorrentAction.add ("")
            (some (cs.foldl (fun s c => s.push c) ctx.session_info.download_dir))),
        Effect.updateAction (UpdateAction.taskSet (StatusTask.new_add ("")))],
       ComponentAction.quit) := by
    rw [wizardAfterStage2, hstate]
    simp [AddMagnetBar.handle_input, AddMagnetBar.handle_location_input,
      AddMagnetBar.new, InputManager.new, InputManager.new_with_value]
  constructor
  · rw [wizardRunEffects, h1, h3]
    have heff : (wizardAfterTyping ctx cs).2.filter Effect.isCall = [] := by
      rw [h2]; exact ht2
    simp [List.filter_append, heff, Effect.isCall]
  · rw [h3]

/-- A concrete error popup payload. -/
def sampleError : ErrorPopup := { title := "Error", message := "connection lost" }

/-- C7 counterexample: with an error popup and a help popup active, the Quit
intent does not dismiss the error popup — it stays active, contradicting the
claim that Quit dismisses it. -/
theorem quit_does_not_dismiss_error :
    (Pipup.handle_events
        { error_popup := some sampleError, help_popup := some {} }
        Action.quit).1.error_popup = some sampleError :=
  rfl

/-- C7 amended: an active error popup is dismissed by the Confirm intent and
by no other input — for every other intent (Quit included) it remains active —
and while active it receives the input ahead of any other overlay; the help
popup beneath is never touched. -/
theorem error_dismissed_only_by_confirm (p : Pipup) (e : ErrorPopup) (a : Action)
    (he : p.error_popup = some e) :
    (p.handle_events a).2.2 = Routed.toError ∧
    (p.handle_events a).1.error_popup =
      (if a = Action.confirm then none else some e) ∧
    (p.handle_events a).1.help_popup = p.help_popup := by
  cases a <;>
    simp [Pipup.handle_events, ErrorPopup.handle_events, he]

/-- Witness for the amended C7: on a concrete popup pair, Confirm clears the
error popup while the Up intent leaves it active and routed-to. -/
theorem error_dismissed_only_by_confirm_witness :
    (Pipup.handle_events
        { error_popup := some sampleError, help_popup := some {} }
        Action.confirm).1.error_popup = none ∧
    (Pipup.handle_events
        { error_popup := some sampleError, help_popup := some {} }
        Action.up).2.2 = Routed.toError := by
  have hc := error_dismissed_only_by_confirm
    { error_popup := some sampleError, help_popup := some {} } sampleError Action.confirm rfl
  have hu := error_dismissed_only_by_confirm
    { error_popup := some sampleError, help_popup := some {} } sampleError Action.up rfl
  exact ⟨by simpa using hc.2.1, hu.1⟩

/-- Non-`Error` actions take the dispatch branch of `MainWindow::handle_events`
that delivers the event to the active popups, or to the base view when none is
active. -/
theorem MainWindow.handle_events_of_not_error (a : Action) (ha : a.isError = false)
    (w : MainWindow) :
    w.handle_events a =
      (if w.popup.needs_action then
        ({ w with popup := (w.popup.handle_events a).1 },
         (w.popup.handle_events a).2.1, (w.popup.handle_events a).2.2)
      else
        ({ w with torrents_tab := (w.torrents_tab.handle_actions a).1 },
         (w.torrents_tab.handle_actions a).2.2, Routed.toBase)) := by
  cases a <;> simp [MainWindow.handle_events, Action.isError] at ha ⊢

/-- C4: with a help popup active and no error popup, raising an `Error` places
the error popup above the help popup; every subsequent non-`Error` input is
delivered to the error popup; Confirm removes exactly the error popup, leaving
the help popup in place; and afterwards every non-`Error` input is delivered
to the help popup, not to the base view. -/
theorem error_overlay_precedence_over_help (w : MainWindow) (h : HelpPopup)
    (e : ErrorPopup)
    (hh : w.popup.help_popup = some h) (he : w.popup.error_popup = none) :
    ((w.handle_events (Action.error e)).1.popup.error_popup = some e ∧
     (w.handle_events (Action.error e)).1.popup.help_popup = some h) ∧
    (∀ a : Action, a.isError = false →
      ((w.handle_events (Action.error e)).1.handle_events a).2.2 = Routed.toError) ∧
    ((w.handle_events (Action.error e)).1.handle_events Action.confirm).1.popup =
      { error_popup := none, help_popup := some h } ∧
    (∀ a : Action, a.isError = false →
      (((w.handle_events (Action.error e)).1.handle_events Action.confirm).1.handle_events
          a).2.2 = Routed.toHelp) := by
  have hw1 : (w.handle_events (Action.error e)).1 =
      { w with popup := { w.popup with error_popup := some e } } := rfl
  have hw2 : ((w.handle_events (Action.error e)).1.handle_events Action.confirm).1 =
      { w with popup := { w.popup with error_popup := none } } := by
    rw [hw1, MainWindow.handle_events_of_not_error Action.confirm rfl]
    simp [Pipup.needs_action, Pipup.handle_events, ErrorPopup.handle_events]
  refine ⟨⟨by rw [hw1], by rw [hw1]; exact hh⟩, ?_, ?_, ?_⟩
  · intro a ha
    rw [hw1, MainWindow.handle_events_of_not_error a ha]
    simp [Pipup.needs_action, Pipup.handle_events]
  · rw [hw2]; simp [hh]
  · intro a ha
    rw [hw2, MainWindow.handle_events_of_not_error a ha]
    simp [Pipup.needs_action, Pipup.handle_events, hh]

/-- A concrete main window: the sample torrents tab beneath, a help popup
active and no error popup. -/
def c4Window : MainWindow :=
  { torrents_tab := sampleTab
    popup := { error_popup := none, help_popup := some {} } }

/-- Witness for C4: on the concrete window, after raising the error and
confirming it away, the help popup is intact and receives the next input. -/
theorem error_overlay_precedence_over_help_witness :
    ((c4Window.handle_events (Action.error sampleError)).1.handle_events
        Action.confirm).1.popup = { error_popup := none, help_popup := some {} } ∧
    (((c4Window.handle_events (Action.error sampleError)).1.handle_events
        Action.confirm).1.handle_events Action.up).2.2 = Routed.toHelp := by
  have h := error_overlay_precedence_over_help c4Window {} sampleError rfl rfl
  exact ⟨h.2.2.1, h.2.2.2 Action.up rfl⟩

end Rustmission
